import Mathlib

/-!
# Verification of the hotel market-dependency / scenario-forecasting engine

Shallow embedding of the numeric core of the repository:

* `Forecasting`        — `src/backend/app/services/forecasting.py`
* `DependencyMetrics`  — `src/backend/app/services/dependency_metrics.py`
* `HotelDependency`    — `src/backend/app/services/hotel_dependency.py`
* `AnalysisCache`      — `src/backend/app/api/routes/analysis.py` (forecast cache)

Python floats are modelled as real numbers (`ℝ`) where transcendental
functions (`sin`, `log`) occur, and as rationals (`ℚ`) in the purely
arithmetic modules so that the definitions stay executable.  File/CSV
inputs are abstracted as explicit function or list parameters; every
arithmetic step is translated from the source.
-/

set_option maxHeartbeats 1000000

namespace Spec2Proof

/-! ## Forecasting: embedding of `services/forecasting.py` -/

namespace Forecasting

/-- `_next_month(year, month)` (forecasting.py line 150). -/
def next_month (year : ℤ) (month : ℕ) : ℤ × ℕ :=
  if month = 12 then (year + 1, 1) else (year, month + 1)

/-- `_prev_month(year, month)` (forecasting.py line 146). -/
def prev_month (year : ℤ) (month : ℕ) : ℤ × ℕ :=
  if month = 1 then (year - 1, 12) else (year, month - 1)

/-- `_add_months(year, month, step)` (forecasting.py line 154): apply
`_next_month` `step` times. -/
def add_months (year : ℤ) (month : ℕ) : ℕ → ℤ × ℕ
  | 0 => (year, month)
  | k + 1 => let p := add_months year month k; next_month p.1 p.2

/-- Stepping backwards `step` months (iterated `_prev_month`), used to
phrase the spec-side description of the trailing-growth walk. -/
def sub_months (year : ℤ) (month : ℕ) : ℕ → ℤ × ℕ
  | 0 => (year, month)
  | k + 1 => let p := sub_months year month k; prev_month p.1 p.2

/-- `_month_in_range(month, start, end)` (forecasting.py lines 162-165). -/
def month_in_range (month start ed : ℕ) : Bool :=
  if start ≤ ed then decide (start ≤ month) && decide (month ≤ ed)
  else decide (month ≥ start) || decide (month ≤ ed)

/-- `_safe_growth(current, prev)` (forecasting.py lines 174-177); `none`
models Python `None`. -/
noncomputable def safe_growth (current : ℝ) (prev : Option ℝ) : ℝ :=
  match prev with
  | none => 0
  | some p => if p ≤ 0 then 0 else (current - p) / p

/-- `_seasonal_component(month)` (forecasting.py lines 180-181). -/
noncomputable def seasonal_component (month : ℕ) : ℝ :=
  0.015 * Real.sin ((2 * Real.pi * month) / 12)

/-- `_clamp_growth(value)` (forecasting.py lines 184-185). -/
noncomputable def clamp_growth (value : ℝ) : ℝ :=
  max (-0.95) (min 2.0 value)

/-- `ScenarioShock` dataclass (forecasting.py lines 53-60); the
`shock_values` dict becomes an association list. -/
structure ScenarioShock where
  event_id : String
  event_name_ja : String
  start_month : ℕ
  end_month : ℕ
  shock_values : List (String × ℝ)
  note : String

/-- Python `scenario.shock_values.get(market, 0.0)`. -/
noncomputable def shock_value (vals : List (String × ℝ)) (market : String) : ℝ :=
  ((vals.find? (fun p => p.1 == market)).map Prod.snd).getD 0

/-- `_shock_for_month(scenario, market, month)` (forecasting.py lines 273-276). -/
noncomputable def shock_for_month (scenario : ScenarioShock) (market : String) (month : ℕ) : ℝ :=
  if month_in_range month scenario.start_month scenario.end_month then
    shock_value scenario.shock_values market
  else 0

/-- One element of the `points` list built by `_build_points_skeleton`
(forecasting.py lines 295-305); the derived presentational string
`month_date` is omitted. -/
structure ForecastPoint where
  step : ℕ
  year : ℤ
  month : ℕ
  predicted_growth_rate : ℝ
  applied_shock_rate : ℝ
  seasonal_component : ℝ

/-- Loop body of `_build_points_skeleton` (forecasting.py lines 288-307):
`prev` carries `prev_growth` across the steps still to process. -/
noncomputable def build_points_go (base_year : ℤ) (base_month : ℕ)
    (trend_growth_rate : ℝ) (shock_rate_fn : ℕ → ℝ) :
    ℝ → List ℕ → List ForecastPoint
  | _, [] => []
  | prev, step :: rest =>
    let ym := add_months base_year base_month step
    let shock_rate := shock_rate_fn ym.2
    let seasonal := seasonal_component ym.2
    let predicted :=
      clamp_growth (0.55 * prev + 0.45 * (trend_growth_rate + seasonal + shock_rate))
    { step := step, year := ym.1, month := ym.2,
      predicted_growth_rate := predicted,
      applied_shock_rate := shock_rate,
      seasonal_component := seasonal } ::
      build_points_go base_year base_month trend_growth_rate shock_rate_fn predicted rest

/-- `_build_points_skeleton` (forecasting.py lines 279-307): iterate the
loop body over `range(1, horizon_months + 1)` starting from
`prev_growth = baseline_growth_rate`. -/
noncomputable def build_points_skeleton (base_year : ℤ) (base_month : ℕ)
    (horizon_months : ℕ) (baseline_growth_rate trend_growth_rate : ℝ)
    (shock_rate_fn : ℕ → ℝ) : List ForecastPoint :=
  build_points_go base_year base_month trend_growth_rate shock_rate_fn
    baseline_growth_rate (List.range' 1 horizon_months)

/-- Spec-side recurrence (spec §4.6, heuristic strategy): `predicted[0] =
baseline_growth` and `predicted[step] = clamp(0.55·predicted[step-1] +
0.45·(trend_growth + seasonal(month) + shock_rate(month)))` where `month`
is reached by stepping forward from the base month. -/
noncomputable def spec_predicted (base_year : ℤ) (base_month : ℕ)
    (baseline_growth_rate trend_growth_rate : ℝ) (shock_rate_fn : ℕ → ℝ) : ℕ → ℝ
  | 0 => baseline_growth_rate
  | n + 1 =>
    let m := (add_months base_year base_month (n + 1)).2
    clamp_growth
      (0.55 * spec_predicted base_year base_month baseline_growth_rate
          trend_growth_rate shock_rate_fn n
        + 0.45 * (trend_growth_rate + seasonal_component m + shock_rate_fn m))

/-- Result dict of `_estimate_baseline` (forecasting.py lines 264-270). -/
structure BaselineEstimate where
  current_total : ℝ
  prev_total : ℝ
  active_facilities : ℕ
  baseline_growth_rate : ℝ
  trend_growth_rate : ℝ

/-- A partition table abstracting `_market_total(prefecture, year, month,
market)` (forecasting.py lines 224-235) for one fixed prefecture/market:
`none` models `load_rows` raising `FileNotFoundError` for a missing
monthly partition, `some (total, active)` its `(total, active)` result. -/
def MarketTotalTable : Type := ℤ × ℕ → Option (ℝ × ℕ)

/-- The `for _ in range(3)` trailing-growth loop of `_estimate_baseline`
(forecasting.py lines 248-259): walk back one month at a time, stop at the
first missing partition, and collect `_safe_growth(current, prev)`. -/
noncomputable def trailing_growths_go (tbl : MarketTotalTable) :
    ℕ → ℤ → ℕ → ℝ → List ℝ
  | 0, _, _, _ => []
  | fuel + 1, y, m, current =>
    let p := prev_month y m
    match tbl p with
    | none => []
    | some pr =>
      safe_growth current (some pr.1) :: trailing_growths_go tbl fuel p.1 p.2 pr.1

/-- `_estimate_baseline` (forecasting.py lines 238-270); `none` models the
uncaught `FileNotFoundError` when the current partition itself is missing. -/
noncomputable def estimate_baseline (tbl : MarketTotalTable) (year : ℤ) (month : ℕ) :
    Option BaselineEstimate :=
  match tbl (year, month) with
  | none => none
  | some cur =>
    let prev_total : Option ℝ := (tbl (prev_month year month)).map Prod.fst
    let recent_growths := trailing_growths_go tbl 3 year month cur.1
    let baseline_growth := safe_growth cur.1 prev_total
    some
      { current_total := cur.1,
        prev_total := prev_total.getD 0,
        active_facilities := cur.2,
        baseline_growth_rate := baseline_growth,
        trend_growth_rate :=
          if recent_growths.isEmpty then baseline_growth
          else recent_growths.sum / recent_growths.length }

/-- Spec-side baseline (spec §4.4): `(current-prev)/prev` when the
previous month's total is positive, else `0` (missing prior included). -/
noncomputable def spec_baseline_growth (tbl : MarketTotalTable) (year : ℤ) (month : ℕ)
    (current : ℝ) : ℝ :=
  match tbl (sub_months year month 1) with
  | none => 0
  | some pr => if 0 < pr.1 then (current - pr.1) / pr.1 else 0

/-- Spec-side total `i` months back from the base month, `T 0` being the
current total (spec §4.4). -/
noncomputable def spec_back_total (tbl : MarketTotalTable) (year : ℤ) (month : ℕ)
    (current : ℝ) (i : ℕ) : ℝ :=
  match i with
  | 0 => current
  | _ => ((tbl (sub_months year month i)).map Prod.fst).getD 0

/-- Spec-side trailing growth list (spec §4.4): up to 3 month-over-month
growth rates `safe_growth (T i) (T (i+1))`, walking backward and stopping
at the first missing prior partition. -/
noncomputable def spec_trailing_growths (tbl : MarketTotalTable) (year : ℤ) (month : ℕ)
    (current : ℝ) : List ℝ :=
  ((List.range 3).takeWhile (fun i => (tbl (sub_months year month (i + 1))).isSome)).map
    (fun i =>
      safe_growth (spec_back_total tbl year month current i)
        (some (spec_back_total tbl year month current (i + 1))))

/-- Spec-side trend (spec §4.4): mean of the trailing growths, falling
back to the baseline growth when no trailing growth is available. -/
noncomputable def spec_trend_growth (tbl : MarketTotalTable) (year : ℤ) (month : ℕ)
    (current : ℝ) : ℝ :=
  let gs := spec_trailing_growths tbl year month current
  if gs.isEmpty then spec_baseline_growth tbl year month current
  else gs.sum / gs.length

/-- One scenario entry of the payload's `scenarios` list
(forecasting.py lines 338-345 and 357-364). -/
structure ForecastScenario where
  scenario_id : String
  scenario_name_ja : String
  note : String
  points : List ForecastPoint

/-- The fields of the skeleton payload dict (forecasting.py lines 366-378)
that carry forecast content; presentational string constants are kept,
file-derived metadata (`available_scenarios`) is omitted. -/
structure ForecastPayload where
  model_version : String
  base_year : ℤ
  base_month : ℕ
  horizon_months : ℕ
  baseline_growth_rate : ℝ
  scenarios : List ForecastScenario

/-- Python `scenario_map[scenario_id]` lookups on the dict returned by
`load_scenarios`, as an association-list lookup. -/
noncomputable def lookup_scenario (scenario_map : List (String × ScenarioShock))
    (sid : String) : Option ScenarioShock :=
  (scenario_map.find? (fun p => p.1 == sid)).map Prod.snd

/-- Python `scenario_ids or ["fx_jpy_depreciation",
"infectious_disease_resurgence"]` (forecasting.py line 326): `None` and
the empty list are both falsy. -/
def selected_ids_default (scenario_ids : Option (List String)) : List String :=
  match scenario_ids with
  | none => ["fx_jpy_depreciation", "infectious_disease_resurgence"]
  | some l =>
    if l.isEmpty then ["fx_jpy_depreciation", "infectious_disease_resurgence"] else l

/-- `_build_forecast_payload_skeleton` (forecasting.py lines 310-378).
The file-backed inputs are abstracted: `baseline` is the result of
`_estimate_baseline`, `scenario_map` the result of `load_scenarios`; the
resolved `base_year` is a parameter.  The Python filter-then-index over
`scenario_map` becomes a single `filterMap`. -/
noncomputable def build_forecast_payload_skeleton (prefecture market : String)
    (base_year : ℤ) (base_month : ℕ) (horizon_months : ℕ)
    (baseline : BaselineEstimate)
    (scenario_map : List (String × ScenarioShock))
    (scenario_ids : Option (List String)) (custom_shock_rate : ℝ) : ForecastPayload :=
  let _ := prefecture
  let selected_ids := selected_ids_default scenario_ids
  let base_points :=
    build_points_skeleton base_year base_month horizon_months
      baseline.baseline_growth_rate baseline.trend_growth_rate (fun _ => 0)
  let base_scenario : ForecastScenario :=
    { scenario_id := "base", scenario_name_ja := "baseline",
      note := "baseline case without external shock", points := base_points }
  let shocked := selected_ids.filterMap (fun sid =>
    (lookup_scenario scenario_map sid).map (fun sc =>
      ({ scenario_id := sid, scenario_name_ja := sc.event_name_ja, note := sc.note,
         points :=
           build_points_skeleton base_year base_month horizon_months
             baseline.baseline_growth_rate baseline.trend_growth_rate
             (fun month => shock_for_month sc market month + custom_shock_rate) }
        : ForecastScenario)))
  { model_version := "skeleton-v0.1", base_year := base_year, base_month := base_month,
    horizon_months := horizon_months,
    baseline_growth_rate := baseline.baseline_growth_rate,
    scenarios := base_scenario :: shocked }

/-- Loop body of `_predict_recursive_points` (forecasting.py lines
596-672), the model strategy.  The pandas feature assembly and the
trained regressor are abstracted as `model : step → raw per-facility
predictions`; `pred_series.fillna(0.0).clip(lower=0.0)` is `max 0`, the
step's aggregate is the sum, and the emitted growth rate is
`_safe_growth(predicted_total, prev_total_for_growth)` — the code applies
no clamp here.  `prev` carries `prev_total_for_growth`. -/
noncomputable def predict_recursive_go (model : ℕ → List ℝ) (base_year : ℤ)
    (base_month : ℕ) (shock_rate_fn : ℕ → ℝ) :
    ℝ → List ℕ → List ForecastPoint
  | _, [] => []
  | prev, step :: rest =>
    let ym := add_months base_year base_month step
    let shock_rate := shock_rate_fn ym.2
    let predicted_total := ((model step).map (fun x => max 0 x)).sum
    let growth_rate := safe_growth predicted_total (some prev)
    { step := step, year := ym.1, month := ym.2,
      predicted_growth_rate := growth_rate,
      applied_shock_rate := shock_rate,
      seasonal_component := 0 } ::
      predict_recursive_go model base_year base_month shock_rate_fn predicted_total rest

/-- `_predict_recursive_points` (forecasting.py lines 558-680), reduced to
the state actually flowing into the emitted points: the loop over
`range(1, horizon_months + 1)` with `prev_total_for_growth` initialised to
`base_total`. -/
noncomputable def predict_recursive_points (model : ℕ → List ℝ) (base_year : ℤ)
    (base_month : ℕ) (shock_rate_fn : ℕ → ℝ) (base_total : ℝ)
    (horizon_months : ℕ) : List ForecastPoint :=
  predict_recursive_go model base_year base_month shock_rate_fn base_total
    (List.range' 1 horizon_months)

end Forecasting

/-! ## DependencyMetrics: embedding of `services/dependency_metrics.py` -/

namespace DependencyMetrics

/-- `_entropy_from_shares(shares)` (dependency_metrics.py lines 62-63):
`-sum(share * log(share) for share in shares if share > 0)`; the `if
share > 0` filter of the generator becomes a guarded term. -/
noncomputable def entropy_from_shares (shares : List ℝ) : ℝ :=
  -(shares.map (fun share => if 0 < share then share * Real.log share else 0)).sum

/-- `_hhi_from_shares(shares)` (dependency_metrics.py lines 66-67). -/
noncomputable def hhi_from_shares (shares : List ℝ) : ℝ :=
  (shares.map (fun share => share * share)).sum

/-- `_normalize_shares(values)` (dependency_metrics.py lines 70-74). -/
noncomputable def normalize_shares (values : List ℝ) : List ℝ × ℝ :=
  let total := values.sum
  if total ≤ 0 then (values.map (fun _ => 0), 0)
  else (values.map (fun value => value / total), total)

/-- The dict returned by `_build_market_snapshot`
(dependency_metrics.py lines 141-167); Python `None` becomes `none`. -/
structure MarketSnapshot where
  market_total : ℝ
  facility_count_total : ℕ
  facility_count_active : ℕ
  facility_hhi : Option ℝ
  facility_entropy : Option ℝ
  facility_entropy_norm_active : Option ℝ
  facility_top1_share : Option ℝ

/-- `_build_market_snapshot(market_values, facility_count_total)`
(dependency_metrics.py lines 134-167).  `max(shares) if shares else None`
is `List.max?`. -/
noncomputable def build_market_snapshot (market_values : List ℝ)
    (facility_count_total : ℕ) : MarketSnapshot :=
  let market_total := market_values.sum
  let facility_count_active := (market_values.filter (fun value => decide (0 < value))).length
  if market_total ≤ 0 then
    { market_total := 0, facility_count_total := facility_count_total,
      facility_count_active := facility_count_active,
      facility_hhi := none, facility_entropy := none,
      facility_entropy_norm_active := none, facility_top1_share := none }
  else
    let shares := (normalize_shares market_values).1
    let facility_hhi := hhi_from_shares shares
    let facility_entropy := entropy_from_shares shares
    let entropy_norm_active :=
      if 1 < facility_count_active then
        facility_entropy / Real.log facility_count_active
      else 0
    { market_total := market_total, facility_count_total := facility_count_total,
      facility_count_active := facility_count_active,
      facility_hhi := some facility_hhi, facility_entropy := some facility_entropy,
      facility_entropy_norm_active := some entropy_norm_active,
      facility_top1_share := shares.max? }

end DependencyMetrics

/-! ## HotelDependency: embedding of `services/hotel_dependency.py` -/

namespace HotelDependency

/-- `HotelRow` dataclass (hotel_dependency.py lines 40-48); the `markets`
dict becomes an association list, numeric values are rationals. -/
structure HotelRow where
  lat : ℚ
  lng : ℚ
  address : String
  ward : String
  overseas_total : ℚ
  domestic_total : ℚ
  markets : List (String × ℚ)

/-- Iteration order of `MARKET_COLUMNS` (hotel_dependency.py lines 19-26):
Python dicts iterate in insertion order. -/
def MARKET_KEYS : List String :=
  ["china", "north_america", "korea", "europe", "southeast_asia", "japan"]

/-- Python `row.markets.get(market, 0.0)`. -/
def market_value (markets : List (String × ℚ)) (market : String) : ℚ :=
  ((markets.find? (fun p => p.1 == market)).map Prod.snd).getD 0

/-- One element of the `points` list (hotel_dependency.py lines 185-192). -/
structure DependencyPoint where
  lat : ℚ
  lng : ℚ
  dependency_score : ℚ
  market : String

/-- Inner `for market in MARKET_COLUMNS` loop of `build_dependency_points`
(hotel_dependency.py lines 168-192): the three `continue` guards become
`filterMap` drops. -/
def row_points (row : HotelRow) : List DependencyPoint :=
  MARKET_KEYS.filterMap (fun market =>
    let value := market_value row.markets market
    if value ≤ 0 then none
    else
      let denominator :=
        if market = "japan" then row.overseas_total + row.domestic_total
        else row.overseas_total
      if denominator ≤ 0 then none
      else
        let score := value / denominator
        if score ≤ 0 then none
        else some { lat := row.lat, lng := row.lng,
                    dependency_score := min 1 (max 0 score), market := market })

/-- Descending-by-score comparator of `points.sort(key=..., reverse=True)`
(hotel_dependency.py line 195). -/
def score_ge (a b : DependencyPoint) : Bool :=
  decide (b.dependency_score ≤ a.dependency_score)

/-- `build_dependency_points` (hotel_dependency.py lines 158-198) after
`load_rows` and `_filter_prefecture`: `rows` stands for `target_rows`.
Python's stable descending sort is a stable `mergeSort` on `score_ge`. -/
def build_dependency_points (rows : List HotelRow) (max_points : ℕ) :
    List DependencyPoint :=
  let points := (rows.map row_points).flatten
  if max_points < points.length then (points.mergeSort score_ge).take max_points
  else points

end HotelDependency

/-! ## AnalysisCache: embedding of the forecast cache in
`api/routes/analysis.py` -/

namespace AnalysisCache

/-- `FORECAST_CACHE_TTL_SECONDS = 300` (analysis.py line 21). -/
def FORECAST_CACHE_TTL_SECONDS : ℚ := 300

/-- Python `round(x, 6)` on the facility coordinates (analysis.py lines
260-261), modelled on rationals (`round` is Mathlib's round-half-up; the
Python float round-half-even differs only on exact half-microdegree
ties, which no claim exercises). -/
def round6 (x : ℚ) : ℚ := (round (x * 1000000) : ℤ) / 1000000

/-- The value dict serialized by `json.dumps(..., ensure_ascii=True,
sort_keys=True)` to form the cache key (analysis.py lines 254-268).  The
dict has a fixed key set, so the produced JSON string is in bijection
with this record; key equality in the Python cache is equality of this
record.  Note the `scenario_ids` list is stored in request order. -/
structure ForecastCacheKey where
  prefecture : String
  market : String
  base_year : Option ℤ
  base_month : ℕ
  facility_lat : Option ℚ
  facility_lng : Option ℚ
  horizon_months : ℕ
  scenario_ids : List String
  custom_shock_rate : ℚ
deriving DecidableEq

/-- Key construction inside `_get_forecast_payload_cached` (analysis.py
lines 254-268): coordinates are rounded to six decimals when present, and
`scenario_ids or []` maps both `None` and `[]` to the empty list. -/
def forecast_cache_key (prefecture market : String) (base_year : Option ℤ)
    (base_month : ℕ) (facility_lat facility_lng : Option ℚ)
    (horizon_months : ℕ) (scenario_ids : Option (List String))
    (custom_shock_rate : ℚ) : ForecastCacheKey :=
  { prefecture := prefecture, market := market, base_year := base_year,
    base_month := base_month,
    facility_lat := facility_lat.map round6,
    facility_lng := facility_lng.map round6,
    horizon_months := horizon_months,
    scenario_ids := scenario_ids.getD [],
    custom_shock_rate := custom_shock_rate }

/-- `_FORECAST_CACHE: dict[str, tuple[float, dict]]` (analysis.py line
22): an association list from keys to `(saved_at, payload)`; `κ` stands
for the JSON key string, `V` for the payload dict. -/
abbrev Cache (κ V : Type) : Type := List (κ × ℚ × V)

/-- `_FORECAST_CACHE.get(key)`: first-match association lookup. -/
def cache_lookup {κ V : Type} [DecidableEq κ] (c : Cache κ V) (k : κ) :
    Option (ℚ × V) :=
  (c.find? (fun e => decide (e.1 = k))).map Prod.snd

/-- `_FORECAST_CACHE[key] = (now, payload)`: replace the entry in place if
the key is present, else append. -/
def cache_insert {κ V : Type} [DecidableEq κ] :
    Cache κ V → κ → ℚ → V → Cache κ V
  | [], k, t, v => [(k, t, v)]
  | e :: rest, k, t, v =>
    if e.1 = k then (k, t, v) :: rest else e :: cache_insert rest k t v

/-- The stale-key purge pass (analysis.py lines 288-294): drop every entry
with `now - saved_at > FORECAST_CACHE_TTL_SECONDS`. -/
def cache_evict_stale {κ V : Type} (c : Cache κ V) (now : ℚ) : Cache κ V :=
  c.filter (fun e => decide (now - e.2.1 ≤ FORECAST_CACHE_TTL_SECONDS))

/-- `_get_forecast_payload_cached` (analysis.py lines 241-296) as a cache
transition: `compute` stands for the `build_forecast_payload` call, the
returned `Bool` records whether it was invoked.  A present, in-TTL entry
is returned unchanged; otherwise the value is computed, inserted at time
`now`, and — only when the cache then exceeds 128 entries — the stale
entries are purged. -/
def get_or_compute {κ V : Type} [DecidableEq κ] (c : Cache κ V) (now : ℚ)
    (k : κ) (compute : Unit → V) : V × Bool × Cache κ V :=
  let miss : V × Bool × Cache κ V :=
    let v := compute ()
    let inserted := cache_insert c k now v
    (v, true,
      if 128 < inserted.length then cache_evict_stale inserted now else inserted)
  match cache_lookup c k with
  | some tv => if now - tv.1 ≤ FORECAST_CACHE_TTL_SECONDS then (tv.2, false, c) else miss
  | none => miss

end AnalysisCache

/-! ## Theorems -/

open Forecasting DependencyMetrics HotelDependency AnalysisCache

/-- C6: `shock_for(market, month)` returns the per-market shock value
exactly on the inclusive active range with wrap-around semantics
(`start > end` activates `{start..12} ∪ {1..end}`, e.g. `start=11,
end=2` is active exactly on `{11,12,1,2}` among calendar months), returns
0 outside the range, and returns 0 for a market the shock row does not
cover. -/
theorem claim_C6_shock_for_range (sc : ScenarioShock) (market : String) (month : ℕ) :
    (month_in_range month sc.start_month sc.end_month = true →
      shock_for_month sc market month = shock_value sc.shock_values market)
    ∧ (month_in_range month sc.start_month sc.end_month = false →
      shock_for_month sc market month = 0)
    ∧ (sc.shock_values.find? (fun p => p.1 == market) = none →
      shock_for_month sc market month = 0)
    ∧ (sc.start_month ≤ sc.end_month →
      (month_in_range month sc.start_month sc.end_month = true ↔
        sc.start_month ≤ month ∧ month ≤ sc.end_month))
    ∧ (sc.end_month < sc.start_month →
      (month_in_range month sc.start_month sc.end_month = true ↔
        sc.start_month ≤ month ∨ month ≤ sc.end_month))
    ∧ (1 ≤ month → month ≤ 12 →
      (month_in_range month 11 2 = true ↔ month ∈ ([11, 12, 1, 2] : List ℕ))) := by
  refine ⟨fun h => ?_, fun h => ?_, fun h => ?_, fun h => ?_, fun h => ?_,
    fun h1 h12 => ?_⟩
  · simp [shock_for_month, h]
  · simp [shock_for_month, h]
  · rcases hmr : month_in_range month sc.start_month sc.end_month with _ | _
    · simp [shock_for_month, hmr]
    · simp [shock_for_month, hmr, shock_value, h]
  · simp [month_in_range, h]
  · simp [month_in_range, Nat.not_le.mpr h]
  · have hr : month_in_range month 11 2 = (decide (month ≥ 11) || decide (month ≤ 2)) := by
      simp [month_in_range]
    rw [hr]
    simp only [List.mem_cons, List.not_mem_nil, or_false, Bool.or_eq_true,
      decide_eq_true_eq]
    omega

/-- C6 witness: a concrete shock active on the wrap-around range
`{11,12,1,2}`, evaluated at December. -/
theorem claim_C6_shock_for_range_witness :
    month_in_range 12 11 2 = true ∧
      shock_for_month
        { event_id := "x", event_name_ja := "x", start_month := 11, end_month := 2,
          shock_values := [], note := "" } "china" 12 =
        shock_value [] "china" :=
  ⟨by decide,
    (claim_C6_shock_for_range
      { event_id := "x", event_name_ja := "x", start_month := 11, end_month := 2,
        shock_values := [], note := "" } "china" 12).1 (by decide)⟩

/-- The clamp keeps every value inside `[-0.95, 2.0]`. -/
theorem clamp_growth_bounds (v : ℝ) :
    -0.95 ≤ clamp_growth v ∧ clamp_growth v ≤ 2 :=
  ⟨le_max_left _ _, max_le (by norm_num) ((min_le_left _ _).trans (by norm_num))⟩

/-- The skeleton loop body emits, at position `i` of the remaining steps
`k+1, k+2, …`, exactly the spec recurrence value at index `k+1+i`. -/
theorem build_points_go_getElem (base_year : ℤ) (base_month : ℕ)
    (baseline trend : ℝ) (fn : ℕ → ℝ) :
    ∀ (n k i : ℕ), i < n →
      (build_points_go base_year base_month trend fn
          (spec_predicted base_year base_month baseline trend fn k)
          (List.range' (k + 1) n))[i]? =
        some { step := k + 1 + i,
               year := (add_months base_year base_month (k + 1 + i)).1,
               month := (add_months base_year base_month (k + 1 + i)).2,
               predicted_growth_rate :=
                 spec_predicted base_year base_month baseline trend fn (k + 1 + i),
               applied_shock_rate := fn (add_months base_year base_month (k + 1 + i)).2,
               seasonal_component :=
                 seasonal_component (add_months base_year base_month (k + 1 + i)).2 } := by
  intro n
  induction n with
  | zero => intro k i hi; omega
  | succ n ih =>
    intro k i hi
    rw [List.range'_succ]
    have hpred :
        clamp_growth
            (0.55 * spec_predicted base_year base_month baseline trend fn k
              + 0.45 * (trend
                  + seasonal_component (add_months base_year base_month (k + 1)).2
                  + fn (add_months base_year base_month (k + 1)).2)) =
          spec_predicted base_year base_month baseline trend fn (k + 1) := by
      simp [spec_predicted]
    cases i with
    | zero =>
      simp [build_points_go, hpred]
    | succ i =>
      have hidx : k + 1 + (i + 1) = (k + 1) + 1 + i := by omega
      rw [hidx]
      simpa [build_points_go, hpred] using ih (k + 1) i (by omega)

/-- C1: in the heuristic strategy, the point at index `i` (step `i+1`) of
`_build_points_skeleton` carries exactly the spec recurrence value
`spec_predicted (i+1)`, i.e. `clamp(0.55·previous + 0.45·(trend +
seasonal(month) + shock_rate(month)))` iterated from the step-0 value
`baseline_growth`, with the month obtained by stepping forward from the
base month and `seasonal(month) = 0.015·sin(2π·month/12)`. -/
theorem claim_C1_heuristic_recurrence (base_year : ℤ) (base_month : ℕ)
    (horizon_months : ℕ) (baseline trend : ℝ) (fn : ℕ → ℝ) (i : ℕ)
    (hi : i < horizon_months) :
    (build_points_skeleton base_year base_month horizon_months baseline trend fn)[i]? =
      some { step := i + 1,
             year := (add_months base_year base_month (i + 1)).1,
             month := (add_months base_year base_month (i + 1)).2,
             predicted_growth_rate :=
               spec_predicted base_year base_month baseline trend fn (i + 1),
             applied_shock_rate := fn (add_months base_year base_month (i + 1)).2,
             seasonal_component :=
               seasonal_component (add_months base_year base_month (i + 1)).2 } := by
  have h0 : spec_predicted base_year base_month baseline trend fn 0 = baseline := rfl
  have := build_points_go_getElem base_year base_month baseline trend fn
    horizon_months 0 i hi
  rw [h0] at this
  simpa [build_points_skeleton, Nat.add_comm 1 i] using this

/-- C1 witness: horizon 1, index 0. -/
theorem claim_C1_heuristic_recurrence_witness :
    0 < 1 ∧
      (build_points_skeleton 2025 6 1 (0.1 : ℝ) (0.2 : ℝ) (fun _ => 0))[0]? =
        some { step := 1,
               year := (add_months 2025 6 1).1,
               month := (add_months 2025 6 1).2,
               predicted_growth_rate :=
                 spec_predicted 2025 6 (0.1 : ℝ) (0.2 : ℝ) (fun _ => 0) 1,
               applied_shock_rate := 0,
               seasonal_component := seasonal_component (add_months 2025 6 1).2 } :=
  ⟨by decide,
    claim_C1_heuristic_recurrence 2025 6 1 (0.1 : ℝ) (0.2 : ℝ) (fun _ => 0) 0
      (by decide)⟩

/-- The skeleton loop emits exactly the requested steps, in order. -/
theorem build_points_go_map_step (base_year : ℤ) (base_month : ℕ)
    (trend : ℝ) (fn : ℕ → ℝ) :
    ∀ (steps : List ℕ) (prev : ℝ),
      (build_points_go base_year base_month trend fn prev steps).map (·.step) = steps := by
  intro steps
  induction steps with
  | nil => intro prev; simp [build_points_go]
  | cons s rest ih => intro prev; simp [build_points_go, ih]

/-- Every point the skeleton loop emits has a clamped growth rate. -/
theorem build_points_go_pred_bounds (base_year : ℤ) (base_month : ℕ)
    (trend : ℝ) (fn : ℕ → ℝ) :
    ∀ (steps : List ℕ) (prev : ℝ),
      ∀ pt ∈ build_points_go base_year base_month trend fn prev steps,
        -0.95 ≤ pt.predicted_growth_rate ∧ pt.predicted_growth_rate ≤ 2 := by
  intro steps
  induction steps with
  | nil => intro prev pt hpt; simp [build_points_go] at hpt
  | cons s rest ih =>
    intro prev pt hpt
    rw [build_points_go] at hpt
    rcases List.mem_cons.mp hpt with rfl | htail
    · exact clamp_growth_bounds _
    · exact ih _ pt htail

/-- Shape of one `_build_points_skeleton` run: `horizon` points whose
steps are the contiguous 1-indexed list `1, …, horizon`, every growth
rate clamped to `[-0.95, 2.0]`. -/
theorem build_points_skeleton_shape (base_year : ℤ) (base_month : ℕ)
    (horizon_months : ℕ) (baseline trend : ℝ) (fn : ℕ → ℝ) :
    (build_points_skeleton base_year base_month horizon_months baseline trend
        fn).length = horizon_months
    ∧ (build_points_skeleton base_year base_month horizon_months baseline trend
        fn).map (·.step) = List.range' 1 horizon_months
    ∧ ∀ pt ∈ build_points_skeleton base_year base_month horizon_months baseline trend fn,
        -0.95 ≤ pt.predicted_growth_rate ∧ pt.predicted_growth_rate ≤ 2 := by
  refine ⟨?_, ?_, ?_⟩
  · have := congrArg List.length
      (build_points_go_map_step base_year base_month trend fn
        (List.range' 1 horizon_months) baseline)
    simpa [build_points_skeleton] using this
  · exact build_points_go_map_step base_year base_month trend fn _ baseline
  · exact build_points_go_pred_bounds base_year base_month trend fn _ baseline

/-- `_safe_growth` never returns less than `-1` when the current value is
non-negative. -/
theorem safe_growth_ge_neg_one (current : ℝ) (prev : Option ℝ)
    (h : 0 ≤ current) : -1 ≤ safe_growth current prev := by
  rcases prev with _ | p
  · simp [safe_growth]
  · rw [safe_growth]
    rcases le_or_lt p 0 with hp | hp
    · simp [hp]
    · rw [if_neg (not_le.mpr hp), le_div_iff₀ hp]
      nlinarith

/-- The model-strategy loop also emits exactly the requested steps. -/
theorem predict_recursive_go_map_step (model : ℕ → List ℝ) (base_year : ℤ)
    (base_month : ℕ) (fn : ℕ → ℝ) :
    ∀ (steps : List ℕ) (prev : ℝ),
      (predict_recursive_go model base_year base_month fn prev steps).map (·.step)
        = steps := by
  intro steps
  induction steps with
  | nil => intro prev; simp [predict_recursive_go]
  | cons s rest ih => intro prev; simp [predict_recursive_go, ih]

/-- Every model-strategy growth rate is at least `-1` (clipped
non-negative predictions over a positive previous total), but nothing
clamps it into `[-0.95, 2.0]`. -/
theorem predict_recursive_go_pred_lb (model : ℕ → List ℝ) (base_year : ℤ)
    (base_month : ℕ) (fn : ℕ → ℝ) :
    ∀ (steps : List ℕ) (prev : ℝ),
      ∀ pt ∈ predict_recursive_go model base_year base_month fn prev steps,
        -1 ≤ pt.predicted_growth_rate := by
  intro steps
  induction steps with
  | nil => intro prev pt hpt; simp [predict_recursive_go] at hpt
  | cons s rest ih =>
    intro prev pt hpt
    rw [predict_recursive_go] at hpt
    rcases List.mem_cons.mp hpt with rfl | htail
    · show -1 ≤ safe_growth ((model s).map (fun x => max 0 x)).sum (some prev)
      exact safe_growth_ge_neg_one _ _
        (List.sum_nonneg (by
          intro x hx
          rcases List.mem_map.mp hx with ⟨y, _, rfl⟩
          exact le_max_left 0 y))
    · exact ih _ pt htail

/-- `filterMap` that tags each kept element with itself is a `filter`. -/
theorem filterMap_isSome_filter {α β : Type} (f : α → Option β) (g : α → β → α)
    (hg : ∀ a b, g a b = a) (l : List α) :
    l.filterMap (fun a => (f a).map (g a)) = l.filter (fun a => (f a).isSome) := by
  induction l with
  | nil => simp
  | cons a t ih => cases h : f a <;> simp [h, ih, hg]

/-- C5 (amended): every scenario of the skeleton payload — the
always-emitted `"base"` scenario first, then the requested scenarios that
exist in the registry — has exactly `horizon` points with contiguous
1-indexed steps (horizon 0 yields no points), and every skeleton point's
growth rate lies in `[-0.95, 2.0]`; the model strategy
(`_predict_recursive_points`) also yields `horizon` points with
contiguous 1-indexed steps, but its growth rates are only bounded below
by `-1` — the `[-0.95, 2.0]` clamp of the original claim does not hold
there (see the counterexample). -/
theorem claim_C5_payload_shape (prefecture market : String) (base_year : ℤ)
    (base_month horizon_months : ℕ) (baseline : BaselineEstimate)
    (scenario_map : List (String × ScenarioShock))
    (scenario_ids : Option (List String)) (custom_shock_rate : ℝ) :
    ((build_forecast_payload_skeleton prefecture market base_year base_month
        horizon_months baseline scenario_map scenario_ids
        custom_shock_rate).scenarios.map (·.scenario_id)
      = "base" :: (selected_ids_default scenario_ids).filter
          (fun sid => (lookup_scenario scenario_map sid).isSome))
    ∧ (∀ sc ∈ (build_forecast_payload_skeleton prefecture market base_year base_month
          horizon_months baseline scenario_map scenario_ids
          custom_shock_rate).scenarios,
        sc.points.length = horizon_months
        ∧ sc.points.map (·.step) = List.range' 1 horizon_months
        ∧ (horizon_months = 0 → sc.points = [])
        ∧ ∀ pt ∈ sc.points,
            -0.95 ≤ pt.predicted_growth_rate ∧ pt.predicted_growth_rate ≤ 2)
    ∧ ∀ (model : ℕ → List ℝ) (fn : ℕ → ℝ) (base_total : ℝ),
        (predict_recursive_points model base_year base_month fn base_total
            horizon_months).length = horizon_months
        ∧ (predict_recursive_points model base_year base_month fn base_total
            horizon_months).map (·.step) = List.range' 1 horizon_months
        ∧ ∀ pt ∈ predict_recursive_points model base_year base_month fn base_total
            horizon_months, -1 ≤ pt.predicted_growth_rate := by
  refine ⟨?_, ?_, ?_⟩
  · rw [build_forecast_payload_skeleton]
    simp only [List.map_cons, List.map_filterMap]
    rw [← filterMap_isSome_filter (lookup_scenario scenario_map) (fun a _ => a)
      (fun _ _ => rfl)]
    refine congrArg (fun f =>
      "base" :: List.filterMap f (selected_ids_default scenario_ids))
      (funext fun sid => ?_)
    cases h : lookup_scenario scenario_map sid <;> simp [h]
  · intro sc hsc
    have hpoints : ∃ fn : ℕ → ℝ,
        sc.points = build_points_skeleton base_year base_month horizon_months
          baseline.baseline_growth_rate baseline.trend_growth_rate fn := by
      rw [build_forecast_payload_skeleton] at hsc
      rcases List.mem_cons.mp hsc with rfl | htail
      · exact ⟨fun _ => 0, rfl⟩
      · rcases List.mem_filterMap.mp htail with ⟨sid, _, hmap⟩
        rcases Option.map_eq_some'.mp hmap with ⟨scen, _, rfl⟩
        exact ⟨fun month => shock_for_month scen market month + custom_shock_rate, rfl⟩
    rcases hpoints with ⟨fn, hfn⟩
    rw [hfn]
    obtain ⟨hlen, hsteps, hbounds⟩ :=
      build_points_skeleton_shape base_year base_month horizon_months
        baseline.baseline_growth_rate baseline.trend_growth_rate fn
    exact ⟨hlen, hsteps, fun h0 => List.length_eq_zero.mp (h0 ▸ hlen), hbounds⟩
  · intro model fn base_total
    refine ⟨?_, predict_recursive_go_map_step model base_year base_month fn _ _,
      predict_recursive_go_pred_lb model base_year base_month fn _ _⟩
    have := congrArg List.length
      (predict_recursive_go_map_step model base_year base_month fn
        (List.range' 1 horizon_months) base_total)
    simpa [predict_recursive_points] using this

/-- C5 witness: trivial payload (no scenario registry) at horizon 1. -/
theorem claim_C5_payload_shape_witness :
    (build_forecast_payload_skeleton "kyoto" "china" 2025 6 1
        { current_total := 0, prev_total := 0, active_facilities := 0,
          baseline_growth_rate := 0, trend_growth_rate := 0 } [] none 0).scenarios.map
        (·.scenario_id) = ["base"] := by
  have h := (claim_C5_payload_shape "kyoto" "china" 2025 6 1
    { current_total := 0, prev_total := 0, active_facilities := 0,
      baseline_growth_rate := 0, trend_growth_rate := 0 } [] none 0).1
  simpa [selected_ids_default, lookup_scenario] using h

/-- C5 counterexample: under the model strategy a regressor that predicts
a ten-fold jump yields a point with growth rate 9, outside `[-0.95, 2.0]`
— the original claim's bound fails for the model strategy. -/
theorem claim_C5_counterexample :
    (predict_recursive_points (fun _ => [10]) 2025 6 (fun _ => 0) 1 1).map
        (·.predicted_growth_rate) = [9]
    ∧ ¬ ((9 : ℝ) ≤ 2) := by
  constructor
  · have h10 : max (0 : ℝ) 10 = 10 := by norm_num
    simp [predict_recursive_points, predict_recursive_go, List.range',
      safe_growth, h10]
    norm_num
  · norm_num

/-- C3: whenever the value vector's total is `≤ 0` (in particular for the
all-zero and the empty vector), the snapshot's derived fields — HHI,
entropy, normalized entropy, top-1 share — are all `none` (Python
`None`), not zero; real arithmetic has no NaN, so no field can be NaN. -/
theorem claim_C3_degenerate_snapshot_null (market_values : List ℝ)
    (facility_count_total : ℕ) (h : market_values.sum ≤ 0) :
    (build_market_snapshot market_values facility_count_total).facility_hhi = none
    ∧ (build_market_snapshot market_values facility_count_total).facility_entropy = none
    ∧ (build_market_snapshot market_values
        facility_count_total).facility_entropy_norm_active = none
    ∧ (build_market_snapshot market_values facility_count_total).facility_top1_share
        = none := by
  simp [build_market_snapshot, h]

/-- C3 witness: the all-zero two-facility vector. -/
theorem claim_C3_degenerate_snapshot_null_witness :
    ([(0 : ℝ), 0]).sum ≤ 0 ∧
      (build_market_snapshot [(0 : ℝ), 0] 2).facility_hhi = none :=
  ⟨by norm_num, (claim_C3_degenerate_snapshot_null [(0 : ℝ), 0] 2 (by norm_num)).1⟩

theorem list_sum_map_div (l : List ℝ) (T : ℝ) :
    (l.map (fun v => v / T)).sum = l.sum / T := by
  induction l with
  | nil => simp
  | cons a t ih => simp [ih, add_div]

theorem list_sum_sq_nonneg (l : List ℝ) : 0 ≤ (l.map (fun x => x * x)).sum :=
  List.sum_nonneg (by
    intro x hx
    rcases List.mem_map.mp hx with ⟨y, _, rfl⟩
    exact mul_self_nonneg y)

theorem list_sum_map_le (l : List ℝ) (f g : ℝ → ℝ) (h : ∀ x ∈ l, f x ≤ g x) :
    (l.map f).sum ≤ (l.map g).sum := by
  induction l with
  | nil => simp
  | cons a t ih =>
    simp only [List.map_cons, List.sum_cons]
    exact add_le_add (h a (List.mem_cons_self a t))
      (ih fun x hx => h x (List.mem_cons_of_mem a hx))

theorem list_sum_nonpos (l : List ℝ) (h : ∀ x ∈ l, x ≤ 0) : l.sum ≤ 0 := by
  induction l with
  | nil => simp
  | cons a t ih =>
    simp only [List.sum_cons]
    have := ih fun x hx => h x (List.mem_cons_of_mem a hx)
    have := h a (List.mem_cons_self a t)
    linarith

/-- Cauchy–Schwarz for lists: `(Σ l)² ≤ |l| · Σ l²`. -/
theorem list_sq_sum_le_length_mul_sum_sq (l : List ℝ) :
    l.sum ^ 2 ≤ (l.length : ℝ) * (l.map (fun x => x * x)).sum := by
  induction l with
  | nil => simp
  | cons a t ih =>
    rcases eq_or_ne t [] with rfl | ht
    · simp only [List.sum_cons, List.sum_nil, add_zero, List.length_cons,
        List.length_nil, List.map_cons, List.map_nil, Nat.cast_ofNat]
      push_cast
      nlinarith [sq_nonneg a]
    · have hlen : (1 : ℝ) ≤ t.length := by
        have : 0 < t.length := List.length_pos.mpr ht
        exact_mod_cast this
      have hQ : 0 ≤ (t.map (fun x => x * x)).sum := list_sum_sq_nonneg t
      simp only [List.sum_cons, List.map_cons, List.length_cons]
      push_cast
      nlinarith [ih, hQ, sq_nonneg ((t.length : ℝ) * a - t.sum), hlen]

/-- Dropping the non-positive entries of a non-negative list keeps the sum. -/
theorem list_filter_pos_sum (l : List ℝ) (h : ∀ v ∈ l, 0 ≤ v) :
    (l.filter (fun v => decide (0 < v))).sum = l.sum := by
  induction l with
  | nil => simp
  | cons a t ih =>
    have ht := ih fun x hx => h x (List.mem_cons_of_mem a hx)
    rcases lt_or_eq_of_le (h a (List.mem_cons_self a t)) with ha | ha
    · simp [List.filter_cons, ha, ht]
    · simp [List.filter_cons, ← ha, ht]

/-- Dropping the non-positive entries also keeps any sum of a map that
vanishes at 0. -/
theorem list_filter_pos_map_sum (f : ℝ → ℝ) (hf : f 0 = 0) (l : List ℝ)
    (h : ∀ v ∈ l, 0 ≤ v) :
    ((l.filter (fun v => decide (0 < v))).map f).sum = (l.map f).sum := by
  induction l with
  | nil => simp
  | cons a t ih =>
    have ht := ih fun x hx => h x (List.mem_cons_of_mem a hx)
    rcases lt_or_eq_of_le (h a (List.mem_cons_self a t)) with ha | ha
    · simp [List.filter_cons, ha, ht]
    · simp [List.filter_cons, ← ha, ht, hf]

/-- C2: for a non-empty non-negative value vector with positive total, the
normalized shares sum to 1, the HHI lies in `[0, 1]`, the entropy is
non-negative, and `HHI ≥ 1/n` for `n` the number of strictly positive
entries (the active count of `_build_market_snapshot`). -/
theorem claim_C2_concentration_invariants (values : List ℝ) (hne : values ≠ [])
    (hnn : ∀ v ∈ values, 0 ≤ v) (hpos : 0 < values.sum) :
    ((normalize_shares values).1).sum = 1
    ∧ 0 ≤ hhi_from_shares (normalize_shares values).1
    ∧ hhi_from_shares (normalize_shares values).1 ≤ 1
    ∧ 0 ≤ entropy_from_shares (normalize_shares values).1
    ∧ 1 / ((values.filter (fun v => decide (0 < v))).length : ℝ)
        ≤ hhi_from_shares (normalize_shares values).1 := by
  have hT : ¬ values.sum ≤ 0 := not_le.mpr hpos
  have hshares : (normalize_shares values).1 =
      values.map (fun v => v / values.sum) := by
    simp [normalize_shares, hT]
  have hsum1 : ((normalize_shares values).1).sum = 1 := by
    rw [hshares, list_sum_map_div, div_self (ne_of_gt hpos)]
  have hshare_mem : ∀ s ∈ (normalize_shares values).1, 0 ≤ s ∧ s ≤ 1 := by
    rw [hshares]
    intro s hs
    rcases List.mem_map.mp hs with ⟨v, hv, rfl⟩
    exact ⟨div_nonneg (hnn v hv) hpos.le,
      (div_le_one hpos).mpr (List.single_le_sum hnn v hv)⟩
  have hhhi_eq : hhi_from_shares (normalize_shares values).1 =
      (values.map (fun v => (v / values.sum) * (v / values.sum))).sum := by
    rw [hhi_from_shares, hshares, List.map_map]
    rfl
  refine ⟨hsum1, ?_, ?_, ?_, ?_⟩
  · exact list_sum_sq_nonneg _
  · calc hhi_from_shares (normalize_shares values).1
        = (((normalize_shares values).1).map (fun s => s * s)).sum := rfl
      _ ≤ (((normalize_shares values).1).map (fun s => s)).sum := by
          refine list_sum_map_le _ _ _ ?_
          intro s hs
          rcases hshare_mem s hs with ⟨h0, h1⟩
          nlinarith
      _ = 1 := by rw [List.map_id']; exact hsum1
  · rw [entropy_from_shares, neg_nonneg]
    refine list_sum_nonpos _ ?_
    intro x hx
    rcases List.mem_map.mp hx with ⟨s, hs, rfl⟩
    rcases hshare_mem s hs with ⟨h0, h1⟩
    by_cases hspos : 0 < s
    · rw [if_pos hspos]
      exact mul_nonpos_iff.mpr (Or.inl ⟨h0, Real.log_nonpos h0 h1⟩)
    · rw [if_neg hspos]
  · set act := values.filter (fun v => decide (0 < v)) with hact
    have hact_nn : ∀ v ∈ act, 0 ≤ v := fun v hv =>
      hnn v (List.mem_of_mem_filter hv)
    have hact_sum : act.sum = values.sum := list_filter_pos_sum values hnn
    have hact_ne : act ≠ [] := by
      intro h0
      rw [h0] at hact_sum
      simp at hact_sum
      exact absurd hact_sum.symm (ne_of_gt hpos)
    have hnpos : (0 : ℝ) < act.length := by
      have : 0 < act.length := List.length_pos.mpr hact_ne
      exact_mod_cast this
    have hshare_sum : (act.map (fun v => v / values.sum)).sum = 1 := by
      rw [list_sum_map_div, hact_sum, div_self (ne_of_gt hpos)]
    have hcs := list_sq_sum_le_length_mul_sum_sq (act.map (fun v => v / values.sum))
    rw [hshare_sum, List.length_map, List.map_map] at hcs
    have hsq_eq : (act.map ((fun x => x * x) ∘ fun v => v / values.sum)).sum
        = hhi_from_shares (normalize_shares values).1 := by
      rw [hhhi_eq, hact]
      exact list_filter_pos_map_sum (fun v => (v / values.sum) * (v / values.sum))
        (by simp) values hnn
    rw [hsq_eq] at hcs
    rw [div_le_iff₀ hnpos, mul_comm]
    simpa using hcs

/-- C4: with a positive total, the snapshot's normalized entropy is
`entropy / ln(active_count)` when the active count exceeds 1 and exactly
`some 0` (not `none`) when it is 1; and for two equally weighted positive
participants it is exactly 1. -/
theorem claim_C4_entropy_norm (values : List ℝ) (k : ℕ) (hpos : 0 < values.sum) :
    (1 < (values.filter (fun v => decide (0 < v))).length →
      (build_market_snapshot values k).facility_entropy_norm_active =
        some (entropy_from_shares (normalize_shares values).1 /
          Real.log ((values.filter (fun v => decide (0 < v))).length : ℝ)))
    ∧ ((values.filter (fun v => decide (0 < v))).length = 1 →
      (build_market_snapshot values k).facility_entropy_norm_active = some 0)
    ∧ ∀ c : ℝ, 0 < c → ∀ k' : ℕ,
      (build_market_snapshot [c, c] k').facility_entropy_norm_active = some 1 := by
  have hT : ¬ values.sum ≤ 0 := not_le.mpr hpos
  refine ⟨fun h => ?_, fun h => ?_, fun c hc k' => ?_⟩
  · simp [build_market_snapshot, hT, h]
  · simp [build_market_snapshot, hT, h]
  · have hc0 : ¬ (c ≤ 0) := not_le.mpr hc
    have hcc0 : ¬ (c + c ≤ 0) := not_le.mpr (by linarith)
    have hcc : c / (c + c) = (2 : ℝ)⁻¹ := by
      rw [inv_eq_one_div, div_eq_div_iff (by linarith) (by norm_num)]
      ring
    have hent : entropy_from_shares [(1 : ℝ) / 2, 1 / 2] = Real.log 2 := by
      rw [entropy_from_shares, List.map_cons, List.map_cons, List.map_nil]
      rw [if_pos (by norm_num : (0 : ℝ) < 1 / 2)]
      rw [(by rw [one_div, Real.log_inv] : Real.log ((1 : ℝ) / 2) = -Real.log 2)]
      simp only [List.sum_cons, List.sum_nil]
      ring
    norm_num [build_market_snapshot, normalize_shares, List.filter_cons, hc, hc0,
      hcc0, hcc, hent, div_self (ne_of_gt (Real.log_pos (by norm_num : (1 : ℝ) < 2)))]

/-- C4 witness: active count 1 for the vector `[1, 0]`. -/
theorem claim_C4_entropy_norm_witness :
    0 < ([(1 : ℝ), 0]).sum
    ∧ (([(1 : ℝ), 0]).filter (fun v => decide (0 < v))).length = 1
    ∧ (build_market_snapshot [(1 : ℝ), 0] 2).facility_entropy_norm_active = some 0 :=
  ⟨by simp, by norm_num [List.filter_cons],
    (claim_C4_entropy_norm [(1 : ℝ), 0] 2 (by simp)).2.1
      (by norm_num [List.filter_cons])⟩

/-- C2 witness: the two-facility vector `[1, 1]`. -/
theorem claim_C2_concentration_invariants_witness :
    ([(1 : ℝ), 1] ≠ []) ∧ (∀ v ∈ [(1 : ℝ), 1], 0 ≤ v) ∧ (0 < ([(1 : ℝ), 1]).sum)
    ∧ ((normalize_shares [(1 : ℝ), 1]).1).sum = 1 :=
  ⟨by simp,
    by intro v hv; simp [List.mem_cons] at hv; rcases hv with rfl | rfl <;> norm_num,
    by simp,
    (claim_C2_concentration_invariants [(1 : ℝ), 1] (by simp)
      (by intro v hv; simp [List.mem_cons] at hv
          rcases hv with rfl | rfl <;> norm_num)
      (by simp)).1⟩

/-- Equivalence of the source trailing-growth loop with its spec-side
description: walk back up to 3 months, stop at the first missing
partition, collect `safe_growth (T i) (T (i+1))`. -/
theorem trailing_growths_eq_spec (tbl : MarketTotalTable) (y : ℤ) (m : ℕ) (c : ℝ) :
    trailing_growths_go tbl 3 y m c = spec_trailing_growths tbl y m c := by
  have hr3 : List.range 3 = [0, 1, 2] := by decide
  have e1 : sub_months y m 1 = prev_month y m := rfl
  have e2 : sub_months y m 2 =
      prev_month (prev_month y m).1 (prev_month y m).2 := rfl
  have e3 : sub_months y m 3 =
      prev_month (prev_month (prev_month y m).1 (prev_month y m).2).1
        (prev_month (prev_month y m).1 (prev_month y m).2).2 := rfl
  rcases h1 : tbl (prev_month y m) with _ | pr1
  · simp [trailing_growths_go, spec_trailing_growths, hr3, e1, h1]
  · rcases h2 : tbl (prev_month (prev_month y m).1 (prev_month y m).2) with _ | pr2
    · simp [trailing_growths_go, spec_trailing_growths, spec_back_total,
        hr3, e1, e2, h1, h2]
    · rcases h3 : tbl (prev_month (prev_month (prev_month y m).1 (prev_month y m).2).1
          (prev_month (prev_month y m).1 (prev_month y m).2).2) with _ | pr3
      · simp [trailing_growths_go, spec_trailing_growths, spec_back_total,
          hr3, e1, e2, e3, h1, h2, h3]
      · simp [trailing_growths_go, spec_trailing_growths, spec_back_total,
          hr3, e1, e2, e3, h1, h2, h3]

/-- C7: when the current partition exists, `_estimate_baseline` never
fails on missing prior months; its baseline growth is `(current-prev)/prev`
when the previous month's total is positive and `0` otherwise (including a
missing prior partition), and its trend growth is the mean of the up-to-3
trailing month-over-month growth rates collected walking backward and
stopping at the first missing partition, falling back to the baseline
growth when no trailing growth is available. -/
theorem claim_C7_baseline_estimator (tbl : MarketTotalTable) (year : ℤ)
    (month : ℕ) (c : ℝ) (a : ℕ) (h : tbl (year, month) = some (c, a)) :
    ∃ est, estimate_baseline tbl year month = some est
      ∧ est.current_total = c
      ∧ est.baseline_growth_rate = spec_baseline_growth tbl year month c
      ∧ est.trend_growth_rate = spec_trend_growth tbl year month c := by
  have e1 : sub_months year month 1 = prev_month year month := rfl
  have hbase : safe_growth c ((tbl (prev_month year month)).map Prod.fst)
      = spec_baseline_growth tbl year month c := by
    rcases hp : tbl (prev_month year month) with _ | pr
    · simp [spec_baseline_growth, e1, hp, safe_growth]
    · rcases le_or_lt pr.1 0 with h0 | h0
      · simp [spec_baseline_growth, e1, hp, safe_growth, h0, not_lt.mpr h0]
      · simp [spec_baseline_growth, e1, hp, safe_growth, not_le.mpr h0, h0]
  have hu : estimate_baseline tbl year month = some
      { current_total := c,
        prev_total := ((tbl (prev_month year month)).map Prod.fst).getD 0,
        active_facilities := a,
        baseline_growth_rate := safe_growth c ((tbl (prev_month year month)).map Prod.fst),
        trend_growth_rate :=
          if (trailing_growths_go tbl 3 year month c).isEmpty then
            safe_growth c ((tbl (prev_month year month)).map Prod.fst)
          else (trailing_growths_go tbl 3 year month c).sum /
            (trailing_growths_go tbl 3 year month c).length } := by
    simp [estimate_baseline, h]
  refine ⟨_, hu, rfl, hbase, ?_⟩
  show (if (trailing_growths_go tbl 3 year month c).isEmpty then
      safe_growth c ((tbl (prev_month year month)).map Prod.fst)
    else (trailing_growths_go tbl 3 year month c).sum /
      (trailing_growths_go tbl 3 year month c).length)
    = spec_trend_growth tbl year month c
  rw [trailing_growths_eq_spec]
  by_cases hg : (spec_trailing_growths tbl year month c).isEmpty
  · simp [spec_trend_growth, hg, hbase]
  · simp [spec_trend_growth, hg]

/-- C7 witness: a table with only the current partition present — the
baseline and trend growths both degrade to 0 without error. -/
theorem claim_C7_baseline_estimator_witness :
    ((fun p => if p = ((2025 : ℤ), (6 : ℕ)) then some ((10 : ℝ), (3 : ℕ)) else none :
        MarketTotalTable) ((2025 : ℤ), (6 : ℕ)) = some ((10 : ℝ), (3 : ℕ)))
    ∧ ∃ est, estimate_baseline
        (fun p => if p = ((2025 : ℤ), (6 : ℕ)) then some ((10 : ℝ), (3 : ℕ)) else none)
        2025 6 = some est
      ∧ est.current_total = 10
      ∧ est.baseline_growth_rate = spec_baseline_growth
          (fun p => if p = ((2025 : ℤ), (6 : ℕ)) then some ((10 : ℝ), (3 : ℕ)) else none)
          2025 6 10
      ∧ est.trend_growth_rate = spec_trend_growth
          (fun p => if p = ((2025 : ℤ), (6 : ℕ)) then some ((10 : ℝ), (3 : ℕ)) else none)
          2025 6 10 :=
  ⟨by simp,
    claim_C7_baseline_estimator
      (fun p => if p = ((2025 : ℤ), (6 : ℕ)) then some ((10 : ℝ), (3 : ℕ)) else none)
      2025 6 10 3 (by simp)⟩

/-- Inserting a key makes it the lookup result. -/
theorem cache_lookup_insert {κ V : Type} [DecidableEq κ] (c : Cache κ V) (k : κ)
    (t : ℚ) (v : V) : cache_lookup (cache_insert c k t v) k = some (t, v) := by
  induction c with
  | nil => simp [cache_insert, cache_lookup]
  | cons e rest ih =>
    by_cases he : e.1 = k
    · simp [cache_insert, he, cache_lookup]
    · simpa [cache_insert, he, cache_lookup, List.find?_cons] using ih

/-- Filtering keeps the first match of a key when it satisfies the
predicate. -/
theorem cache_lookup_filter {κ V : Type} [DecidableEq κ] (c : Cache κ V) (k : κ)
    (t : ℚ) (v : V) (p : κ × ℚ × V → Bool) (hl : cache_lookup c k = some (t, v))
    (hp : p (k, t, v) = true) : cache_lookup (c.filter p) k = some (t, v) := by
  induction c with
  | nil => simp [cache_lookup] at hl
  | cons e rest ih =>
    by_cases he : e.1 = k
    · rw [cache_lookup, List.find?_cons_of_pos _ (by simp [he])] at hl
      simp only [Option.map_some', Option.some.injEq] at hl
      have he2 : e = (k, t, v) := by
        rcases e with ⟨k0, tv0⟩
        simp only at he hl
        rw [he, hl]
      rw [he2, List.filter_cons_of_pos hp]
      simp [cache_lookup]
    · rw [cache_lookup, List.find?_cons_of_neg _ (by simp [he])] at hl
      by_cases hpe : p e = true
      · rw [List.filter_cons_of_pos hpe, cache_lookup,
          List.find?_cons_of_neg _ (by simp [he])]
        exact ih hl
      · rw [List.filter_cons_of_neg (by simpa using hpe)]
        exact ih hl

/-- Insertion preserves entries with other keys. -/
theorem cache_mem_insert {κ V : Type} [DecidableEq κ] (c : Cache κ V) (k : κ)
    (t : ℚ) (v : V) (e : κ × ℚ × V) (he : e ∈ c) (hk : e.1 ≠ k) :
    e ∈ cache_insert c k t v := by
  induction c with
  | nil => simp at he
  | cons f rest ih =>
    rcases List.mem_cons.mp he with rfl | htail
    · rw [cache_insert, if_neg (by exact hk)]
      exact List.mem_cons_self _ _
    · by_cases hf : f.1 = k
      · rw [cache_insert, if_pos hf]
        exact List.mem_cons_of_mem _ htail
      · rw [cache_insert, if_neg hf]
        exact List.mem_cons_of_mem _ (ih htail)

/-- A fresh (within-TTL) hit returns the cached value without invoking
the compute function and leaves the cache unchanged. -/
theorem get_or_compute_hit {κ V : Type} [DecidableEq κ] (c : Cache κ V)
    (now : ℚ) (k : κ) (f : Unit → V) (t : ℚ) (v : V)
    (hl : cache_lookup c k = some (t, v)) (httl : now - t ≤ 300) :
    get_or_compute c now k f = (v, false, c) := by
  simp [get_or_compute, hl, FORECAST_CACHE_TTL_SECONDS, httl]

/-- On a miss (absent key, or an entry older than the TTL) the compute
function is invoked and the result is inserted at time `now`, followed by
the size-triggered stale purge. -/
theorem get_or_compute_computes {κ V : Type} [DecidableEq κ] (c : Cache κ V)
    (now : ℚ) (k : κ) (f : Unit → V)
    (h : cache_lookup c k = none
      ∨ ∃ t v, cache_lookup c k = some (t, v) ∧ 300 < now - t) :
    get_or_compute c now k f = (f (), true,
      if 128 < (cache_insert c k now (f ())).length then
        cache_evict_stale (cache_insert c k now (f ())) now
      else cache_insert c k now (f ())) := by
  rcases h with hl | ⟨t, v, hl, hexp⟩
  · simp [get_or_compute, hl]
  · simp [get_or_compute, hl, FORECAST_CACHE_TTL_SECONDS, not_le.mpr hexp]

/-- After a computing call the key maps to the fresh entry `(now, f ())`. -/
theorem get_or_compute_miss_lookup {κ V : Type} [DecidableEq κ] (c : Cache κ V)
    (now : ℚ) (k : κ) (f : Unit → V)
    (h : cache_lookup c k = none
      ∨ ∃ t v, cache_lookup c k = some (t, v) ∧ 300 < now - t) :
    cache_lookup (get_or_compute c now k f).2.2 k = some (now, f ()) := by
  rw [get_or_compute_computes c now k f h]
  by_cases h128 : 128 < (cache_insert c k now (f ())).length
  · rw [if_pos h128]
    simp only
    exact cache_lookup_filter _ _ _ _ _ (cache_lookup_insert c k now (f ()))
      (by simp [FORECAST_CACHE_TTL_SECONDS])
  · rw [if_neg h128]
    exact cache_lookup_insert c k now (f ())

/-- C9: forecast-cache behaviour.  (1) an identical key within 300
seconds of insertion is served from the cache without re-invoking the
compute function; (2)–(3) an entry older than 300 seconds, or an absent
key, re-invokes the compute function and (re)places the entry at the
current time; (4) on a computing call, when the cache then exceeds 128
entries exactly the entries whose TTL has elapsed are purged, and no
purge happens at 128 entries or fewer; (5) an entry within its TTL is
never evicted by any call (in particular never for size); (6)–(7) the
two-call scenarios: a second call on the same key within the TTL returns
the first call's value without computing, and after the TTL it
recomputes and replaces the entry. -/
theorem claim_C9_cache_ttl_eviction {κ V : Type} [DecidableEq κ] (c : Cache κ V)
    (now : ℚ) (k : κ) (f : Unit → V) :
    (∀ t v, cache_lookup c k = some (t, v) → now - t ≤ 300 →
      get_or_compute c now k f = (v, false, c))
    ∧ (∀ t v, cache_lookup c k = some (t, v) → 300 < now - t →
      (get_or_compute c now k f).2.1 = true ∧ (get_or_compute c now k f).1 = f ()
      ∧ cache_lookup (get_or_compute c now k f).2.2 k = some (now, f ()))
    ∧ (cache_lookup c k = none →
      (get_or_compute c now k f).2.1 = true ∧ (get_or_compute c now k f).1 = f ()
      ∧ cache_lookup (get_or_compute c now k f).2.2 k = some (now, f ()))
    ∧ ((cache_lookup c k = none
        ∨ ∃ t v, cache_lookup c k = some (t, v) ∧ 300 < now - t) →
      (128 < (cache_insert c k now (f ())).length →
        ∀ e ∈ cache_insert c k now (f ()),
          (e ∈ (get_or_compute c now k f).2.2 ↔ now - e.2.1 ≤ 300))
      ∧ ((cache_insert c k now (f ())).length ≤ 128 →
        (get_or_compute c now k f).2.2 = cache_insert c k now (f ())))
    ∧ (∀ e ∈ c, now - e.2.1 ≤ 300 → e.1 ≠ k → e ∈ (get_or_compute c now k f).2.2)
    ∧ (∀ (now₂ : ℚ) (g : Unit → V),
      (cache_lookup c k = none
        ∨ ∃ t v, cache_lookup c k = some (t, v) ∧ 300 < now - t) →
      now₂ - now ≤ 300 →
      get_or_compute (get_or_compute c now k f).2.2 now₂ k g
        = (f (), false, (get_or_compute c now k f).2.2))
    ∧ (∀ (now₂ : ℚ) (g : Unit → V),
      (cache_lookup c k = none
        ∨ ∃ t v, cache_lookup c k = some (t, v) ∧ 300 < now - t) →
      300 < now₂ - now →
      (get_or_compute (get_or_compute c now k f).2.2 now₂ k g).2.1 = true
      ∧ (get_or_compute (get_or_compute c now k f).2.2 now₂ k g).1 = g ()
      ∧ cache_lookup
          (get_or_compute (get_or_compute c now k f).2.2 now₂ k g).2.2 k
          = some (now₂, g ())) := by
  refine ⟨?_, ?_, ?_, ?_, ?_, ?_, ?_⟩
  · intro t v hl httl
    exact get_or_compute_hit c now k f t v hl httl
  · intro t v hl hexp
    have h : cache_lookup c k = none
        ∨ ∃ t v, cache_lookup c k = some (t, v) ∧ 300 < now - t :=
      Or.inr ⟨t, v, hl, hexp⟩
    refine ⟨?_, ?_, get_or_compute_miss_lookup c now k f h⟩
    · rw [get_or_compute_computes c now k f h]
    · rw [get_or_compute_computes c now k f h]
  · intro hl
    have h : cache_lookup c k = none
        ∨ ∃ t v, cache_lookup c k = some (t, v) ∧ 300 < now - t := Or.inl hl
    refine ⟨?_, ?_, get_or_compute_miss_lookup c now k f h⟩
    · rw [get_or_compute_computes c now k f h]
    · rw [get_or_compute_computes c now k f h]
  · intro h
    constructor
    · intro h128 e he
      rw [get_or_compute_computes c now k f h]
      simp only [if_pos h128]
      rw [cache_evict_stale]
      simp [List.mem_filter, he, FORECAST_CACHE_TTL_SECONDS]
    · intro h128
      rw [get_or_compute_computes c now k f h]
      simp [not_lt.mpr h128]
  · intro e he httl hk
    rcases hl : cache_lookup c k with _ | tv
    · rw [get_or_compute_computes c now k f (Or.inl hl)]
      by_cases h128 : 128 < (cache_insert c k now (f ())).length
      · simp only [if_pos h128]
        rw [cache_evict_stale]
        exact List.mem_filter.mpr ⟨cache_mem_insert c k now (f ()) e he hk,
          by simp [FORECAST_CACHE_TTL_SECONDS, httl]⟩
      · simp only [if_neg h128]
        exact cache_mem_insert c k now (f ()) e he hk
    · by_cases hfresh : now - tv.1 ≤ 300
      · rw [get_or_compute_hit c now k f tv.1 tv.2 (by simpa using hl) hfresh]
        exact he
      · rw [get_or_compute_computes c now k f
          (Or.inr ⟨tv.1, tv.2, by simpa using hl, not_le.mp hfresh⟩)]
        by_cases h128 : 128 < (cache_insert c k now (f ())).length
        · simp only [if_pos h128]
          rw [cache_evict_stale]
          exact List.mem_filter.mpr ⟨cache_mem_insert c k now (f ()) e he hk,
            by simp [FORECAST_CACHE_TTL_SECONDS, httl]⟩
        · simp only [if_neg h128]
          exact cache_mem_insert c k now (f ()) e he hk
  · intro now₂ g h httl
    exact get_or_compute_hit _ now₂ k g now (f ())
      (get_or_compute_miss_lookup c now k f h) httl
  · intro now₂ g h hexp
    have h2 : cache_lookup (get_or_compute c now k f).2.2 k = none
        ∨ ∃ t v, cache_lookup (get_or_compute c now k f).2.2 k = some (t, v)
          ∧ 300 < now₂ - t :=
      Or.inr ⟨now, f (), get_or_compute_miss_lookup c now k f h, hexp⟩
    refine ⟨?_, ?_, get_or_compute_miss_lookup _ now₂ k g h2⟩
    · rw [get_or_compute_computes _ now₂ k g h2]
    · rw [get_or_compute_computes _ now₂ k g h2]

/-- C9 witness: a one-entry cache hit 10 seconds after insertion. -/
theorem claim_C9_cache_ttl_eviction_witness :
    cache_lookup ([((1 : ℕ), (0 : ℚ), (5 : ℕ))] : Cache ℕ ℕ) 1 = some (0, 5)
    ∧ ((10 : ℚ) - 0 ≤ 300)
    ∧ get_or_compute ([((1 : ℕ), (0 : ℚ), (5 : ℕ))] : Cache ℕ ℕ) 10 1
        (fun _ => 7) = (5, false, [((1 : ℕ), (0 : ℚ), (5 : ℕ))]) :=
  ⟨by decide, by norm_num,
    (claim_C9_cache_ttl_eviction ([((1 : ℕ), (0 : ℚ), (5 : ℕ))] : Cache ℕ ℕ) 10 1
      (fun _ => 7)).1 0 5 (by decide) (by norm_num)⟩

/-- C8 counterexample: two forecast requests identical except for the
order of their scenario-id list produce *different* cache keys — the code
serializes `scenario_ids` in request order without sorting, so the claim
as stated is false. -/
theorem claim_C8_counterexample :
    forecast_cache_key "kyoto" "china" none 6 none none 3 (some ["a", "b"]) 0
      ≠ forecast_cache_key "kyoto" "china" none 6 none none 3 (some ["b", "a"]) 0 := by
  intro h
  have := congrArg ForecastCacheKey.scenario_ids h
  simp [forecast_cache_key] at this

/-- C8 (amended): the cache key is a deterministic canonical encoding of
the inputs in which the scenario-id list is kept in request order (only
`None` and the empty list are canonicalized together): with all other
inputs fixed, two requests share a cache key exactly when their
scenario-id lists (after the `or []` normalization) are equal as ordered
lists — so reordering a multi-element scenario list yields a distinct
key and a separate cache entry. -/
theorem claim_C8_amended_cache_key (prefecture market : String)
    (base_year : Option ℤ) (base_month : ℕ) (lat lng : Option ℚ)
    (horizon_months : ℕ) (ids₁ ids₂ : Option (List String)) (shock : ℚ) :
    forecast_cache_key prefecture market base_year base_month lat lng
        horizon_months ids₁ shock
      = forecast_cache_key prefecture market base_year base_month lat lng
        horizon_months ids₂ shock
    ↔ ids₁.getD [] = ids₂.getD [] := by
  constructor
  · intro h
    have := congrArg ForecastCacheKey.scenario_ids h
    simpa [forecast_cache_key] using this
  · intro h
    simp [forecast_cache_key, h]

/-- Scores produced by the per-row loop are always in `(0, 1]`. -/
theorem row_points_score_bounds (row : HotelRow) (pt : DependencyPoint)
    (h : pt ∈ row_points row) :
    0 < pt.dependency_score ∧ pt.dependency_score ≤ 1 := by
  rcases List.mem_filterMap.mp h with ⟨market, _, hm⟩
  simp only [row_points] at hm
  split_ifs at hm
  all_goals obtain rfl := (Option.some.injEq _ _).mp hm
  all_goals exact ⟨lt_min (by norm_num)
    (lt_of_lt_of_le (not_le.mp (by assumption)) (le_max_right _ _)),
    min_le_left _ _⟩

/-- `score_ge` is transitive. -/
theorem score_ge_trans (a b c : DependencyPoint) (hab : score_ge a b = true)
    (hbc : score_ge b c = true) : score_ge a c = true := by
  simp only [score_ge, decide_eq_true_eq] at *
  exact le_trans hbc hab

/-- `score_ge` is total. -/
theorem score_ge_total (a b : DependencyPoint) :
    (score_ge a b || score_ge b a) = true := by
  simp only [score_ge, Bool.or_eq_true, decide_eq_true_eq]
  exact le_total b.dependency_score a.dependency_score

/-- C10: every point returned by `build_dependency_points` has a
dependency score in `(0, 1]` (non-positive values or denominators are
skipped and scores above 1 are clamped); the result holds at most
`max_points` points; and when truncation occurs the result is the
`max_points` highest-scoring points of a permutation of the full point
list — every dropped point scores at most every kept point. -/
theorem claim_C10_dependency_points (rows : List HotelRow) (max_points : ℕ) :
    (∀ pt ∈ build_dependency_points rows max_points,
      0 < pt.dependency_score ∧ pt.dependency_score ≤ 1)
    ∧ (build_dependency_points rows max_points).length ≤ max_points
    ∧ (max_points < ((rows.map row_points).flatten).length →
      build_dependency_points rows max_points
          = (((rows.map row_points).flatten).mergeSort score_ge).take max_points
      ∧ (((rows.map row_points).flatten).mergeSort score_ge).Perm
          ((rows.map row_points).flatten)
      ∧ ∀ a ∈ build_dependency_points rows max_points,
          ∀ b ∈ (((rows.map row_points).flatten).mergeSort score_ge).drop max_points,
            b.dependency_score ≤ a.dependency_score) := by
  set points := (rows.map row_points).flatten with hpoints
  have hmem_points : ∀ pt ∈ points,
      0 < pt.dependency_score ∧ pt.dependency_score ≤ 1 := by
    intro pt hpt
    rcases List.mem_flatten.mp hpt with ⟨l, hl, hptl⟩
    rcases List.mem_map.mp hl with ⟨row, _, rfl⟩
    exact row_points_score_bounds row pt hptl
  have hresult : build_dependency_points rows max_points =
      if max_points < points.length then
        (points.mergeSort score_ge).take max_points
      else points := rfl
  have hsub : ∀ pt ∈ build_dependency_points rows max_points, pt ∈ points := by
    intro pt hpt
    rw [hresult] at hpt
    by_cases hc : max_points < points.length
    · rw [if_pos hc] at hpt
      exact ((points.mergeSort_perm score_ge).mem_iff).mp
        (List.take_subset _ _ hpt)
    · rwa [if_neg hc] at hpt
  refine ⟨fun pt hpt => hmem_points pt (hsub pt hpt), ?_, ?_⟩
  · rw [hresult]
    by_cases hc : max_points < points.length
    · rw [if_pos hc, List.length_take]
      exact min_le_left _ _
    · rw [if_neg hc]
      exact not_lt.mp hc
  · intro hc
    have heq : build_dependency_points rows max_points =
        (points.mergeSort score_ge).take max_points := by
      rw [hresult, if_pos hc]
    refine ⟨heq, points.mergeSort_perm score_ge, ?_⟩
    have hsorted := List.sorted_mergeSort score_ge_trans score_ge_total points
    have hsplit : List.Pairwise (fun a b => score_ge a b = true)
        ((points.mergeSort score_ge).take max_points
          ++ (points.mergeSort score_ge).drop max_points) := by
      rw [List.take_append_drop]
      exact hsorted
    have hpair := (List.pairwise_append.mp hsplit).2.2
    intro a ha b hb
    have := hpair a (by rwa [heq] at ha) b hb
    simpa [score_ge] using this

/-- C10 witness: a single row with one active market, score 1/2. -/
theorem claim_C10_dependency_points_witness :
    (⟨35, 135, 1 / 2, "china"⟩ : DependencyPoint)
      ∈ build_dependency_points
          [(⟨35, 135, "a", "w", 4, 6, [("china", 2)]⟩ : HotelRow)] 10
    ∧ (0 < ((1 : ℚ) / 2) ∧ ((1 : ℚ) / 2) ≤ 1) := by
  have hrow : row_points (⟨35, 135, "a", "w", 4, 6, [("china", 2)]⟩ : HotelRow)
      = [(⟨35, 135, 1 / 2, "china"⟩ : DependencyPoint)] := by
    rw [row_points, MARKET_KEYS]
    rw [List.filterMap_cons_some
      (b := (⟨35, 135, 1 / 2, "china"⟩ : DependencyPoint))
      (by norm_num [market_value, List.find?_cons,
        (by decide : ("china" == "china") = true),
        (by decide : ¬ ("china" = "japan"))])]
    rw [List.filterMap_cons_none (by norm_num [market_value, List.find?_cons,
      (by decide : ("china" == "north_america") = false)])]
    rw [List.filterMap_cons_none (by norm_num [market_value, List.find?_cons,
      (by decide : ("china" == "korea") = false)])]
    rw [List.filterMap_cons_none (by norm_num [market_value, List.find?_cons,
      (by decide : ("china" == "europe") = false)])]
    rw [List.filterMap_cons_none (by norm_num [market_value, List.find?_cons,
      (by decide : ("china" == "southeast_asia") = false)])]
    rw [List.filterMap_cons_none (by norm_num [market_value, List.find?_cons,
      (by decide : ("china" == "japan") = false)])]
    rw [List.filterMap_nil]
  have hmem : (⟨35, 135, 1 / 2, "china"⟩ : DependencyPoint)
      ∈ build_dependency_points
          [(⟨35, 135, "a", "w", 4, 6, [("china", 2)]⟩ : HotelRow)] 10 := by
    have hres : build_dependency_points
        [(⟨35, 135, "a", "w", 4, 6, [("china", 2)]⟩ : HotelRow)] 10
        = [(⟨35, 135, 1 / 2, "china"⟩ : DependencyPoint)] := by
      simp only [build_dependency_points, List.map_cons, List.map_nil, hrow]
      norm_num
    rw [hres]
    exact List.mem_cons_self _ _
  refine ⟨hmem, ?_⟩
  have := (claim_C10_dependency_points
    [(⟨35, 135, "a", "w", 4, 6, [("china", 2)]⟩ : HotelRow)] 10).1 _ hmem
  simpa using this

end Spec2Proof
